import Mathlib

/-!
Verification of `cmd/generate-builder-opts/main.go` (splunk/go-generate-builder-opts).

The program parses a Go source file, locates a named struct type, and emits a
function-type declaration plus one "field setter" function per eligible field.
We embed the post-parser pipeline (`findRequestedStructType`, `funcTypeIdent`,
`withTypeDef`, `withFuncs`, `getInnerFn`, `withFirstCharLower`,
`withFirstCharUppper`, and the `run` driver) shallowly in Lean.

Go strings are byte strings, and the program's case analyses are byte-level:
`unicode.IsLower(rune(name[0]))` looks at the first byte of the UTF-8 encoding
reinterpreted as a Latin-1 code point, and `strings.ToLower(s[0:1])` lowercases
the one-byte prefix (mangling a multi-byte first character into U+FFFD).  To be
faithful to that, identifiers are modelled as lists of bytes (`List Nat`), with
`strBytes` translating a Lean string literal to its UTF-8 bytes.

The parser (`go/parser`) and the renderer (`go/printer`) are external
collaborators per the specification; the embedding starts from the parsed
representation (`ParsedFile`) and stops at the synthesized declaration list
(`OutFile`).  Only the syntactic shapes the pipeline inspects are modelled:
a type expression is an identifier, a pointer, a selector (qualified name),
an array/slice, a map, or an interface; field tags and comments contain no
`SelectorExpr`, so they are irrelevant to `ast.Inspect`'s import check and
are omitted.
-/

/-- A Go identifier (or package name), as the list of bytes of its UTF-8
encoding.  Go strings are byte strings, and the program indexes and slices
them by byte, so this is the faithful carrier. -/
abbrev Ident := List Nat

/-- The UTF-8 encoding of one character. -/
def utf8Bytes (c : Char) : List Nat :=
  let n := c.toNat
  if n < 0x80 then [n]
  else if n < 0x800 then [0xC0 + n / 0x40, 0x80 + n % 0x40]
  else if n < 0x10000 then [0xE0 + n / 0x1000, 0x80 + n / 0x40 % 0x40, 0x80 + n % 0x40]
  else [0xF0 + n / 0x40000, 0x80 + n / 0x1000 % 0x40, 0x80 + n / 0x40 % 0x40, 0x80 + n % 0x40]

/-- The UTF-8 bytes of a Lean string: convenience for writing concrete
identifiers, mirroring how Go source text stores them. -/
def strBytes (s : String) : List Nat :=
  s.data.foldr (fun c acc => utf8Bytes c ++ acc) []

/-- The first byte of an identifier (Go `name[0]`).  The program only ever
applies this to parser-produced field names, which are nonempty; the `[]`
case is an arbitrary total-function default. -/
def headByte : Ident → Nat
  | [] => 0
  | b :: _ => b

/-- Go `unicode.IsLower(r)` for `r ≤ 0xFF`, i.e. the Latin-1 fast path of the
Go `unicode` package: the bytes whose code points are category Ll.  These are
ASCII `a`-`z`, `µ` (0xB5), `ß`-`ö` (0xDF-0xF6), and `ø`-`ÿ` (0xF8-0xFF);
`ª` (0xAA) and `º` (0xBA) are category Lo and are not lowercase. -/
def goIsLowerByte (b : Nat) : Bool :=
  (0x61 ≤ b && b ≤ 0x7A) || b == 0xB5 || (0xDF ≤ b && b ≤ 0xF6) || (0xF8 ≤ b && b ≤ 0xFF)

/-- Go `strings.ToLower(s[0:1])` for first byte `b`: a single ASCII byte is
lowercased in place; any byte ≥ 0x80 alone is invalid UTF-8, decodes to
`utf8.RuneError`, and is re-encoded as the three bytes of U+FFFD. -/
def toLowerSingleByte (b : Nat) : List Nat :=
  if b < 0x80 then [if 0x41 ≤ b && b ≤ 0x5A then b + 0x20 else b]
  else [0xEF, 0xBF, 0xBD]

/-- Go `strings.ToUpper(s[0:1])` for first byte `b`; see `toLowerSingleByte`. -/
def toUpperSingleByte (b : Nat) : List Nat :=
  if b < 0x80 then [if 0x61 ≤ b && b ≤ 0x7A then b - 0x20 else b]
  else [0xEF, 0xBF, 0xBD]

/-- Go `withFirstCharLower`: `strings.ToLower(s[0:1]) + s[1:]` (empty string
returned unchanged). -/
def withFirstCharLower : Ident → Ident
  | [] => []
  | b :: rest => toLowerSingleByte b ++ rest

/-- Go `withFirstCharUppper` (the source's spelling):
`strings.ToUpper(s[0:1]) + s[1:]` (empty string returned unchanged). -/
def withFirstCharUppper : Ident → Ident
  | [] => []
  | b :: rest => toUpperSingleByte b ++ rest

/-- The syntactic shapes of a field's type expression that the pipeline can
meet: identifier, pointer, qualified reference (`pkg.Name`, Go
`ast.SelectorExpr`), array/slice, map, and the empty interface. -/
inductive TypeExpr where
  | ident : Ident → TypeExpr
  | star : TypeExpr → TypeExpr
  | selector : TypeExpr → Ident → TypeExpr
  | arrayType : TypeExpr → TypeExpr
  | mapType : TypeExpr → TypeExpr → TypeExpr
  | interfaceType : TypeExpr
  deriving DecidableEq

/-- The result of the `ast.Inspect` walk in `withFuncs` that sets
`fieldContainsImport`: whether a `SelectorExpr` occurs anywhere in the field's
syntax.  A field's names are plain identifiers and its tag is a literal, so
the walk can only find a selector inside the type expression. -/
def containsSelector : TypeExpr → Bool
  | .ident _ => false
  | .star t => containsSelector t
  | .selector _ _ => true
  | .arrayType t => containsSelector t
  | .mapType k v => containsSelector k || containsSelector v
  | .interfaceType => false

/-- One entry of a struct's field list (a Go `ast.Field` value, the spec's
"FieldGroup"; the Lean name `Field` is taken by algebra): zero or more names
sharing one type expression.  An empty name list is an embedded field. -/
structure FieldGroup where
  names : List Ident
  type : TypeExpr
  deriving DecidableEq

/-- The underlying shape of a type declaration: a struct (Go
`ast.StructType`), or anything else (a defined scalar type, etc.). -/
inductive TypeShape where
  | structShape : List FieldGroup → TypeShape
  | otherShape : TypeExpr → TypeShape
  deriving DecidableEq

/-- A type declaration entry (Go `ast.TypeSpec`): a name and its shape. -/
structure TypeSpec where
  name : Ident
  type : TypeShape
  deriving DecidableEq

/-- A top-level declaration as `findRequestedStructType` classifies it: a
`GenDecl` with token `TYPE` carrying its specs, or any other declaration
(functions, imports, var/const blocks), which the search skips. -/
inductive Decl where
  | typeDecl : List TypeSpec → Decl
  | otherDecl : Decl
  deriving DecidableEq

/-- The parsed input file (Go `ast.File`): package name and declarations in
file order. -/
structure ParsedFile where
  pkgName : Ident
  decls : List Decl
  deriving DecidableEq

/-- The run configuration (the source's `flagOpts`, minus the two file-path
fields, which belong to the out-of-scope I/O shell). -/
structure flagOpts where
  structTypeName : Ident
  exportFnType : Bool
  generateForUnexportedFields : Bool
  ignoreUnsupported : Bool
  skipStructFields : List Ident
  deriving DecidableEq

/-- The errors `run` can return.  `typeNotFound` is the message "could not
find struct type in definition file"; `embeddedFieldsDisallowed` is "embedded
fields disallowed"; `importedFieldType` is "cannot generate for fields whose
type is imported"; `noFields` is "no fields in struct (aside from ignored
errors)".  `panicBadStructType` models the `panic("bad type for struct
type")` guard in `withFuncs`, which is unreachable from `run`. -/
inductive GenError where
  | typeNotFound
  | embeddedFieldsDisallowed
  | importedFieldType
  | noFields
  | panicBadStructType
  deriving DecidableEq

/-- The inner loop of `findRequestedStructType` over one `GenDecl`'s specs:
return the first spec whose underlying type is a struct and whose name equals
the requested name (the source checks the struct-shape assertion first, then
the name, in one conjunction). -/
def findInSpecs (structName : Ident) : List TypeSpec → Option TypeSpec
  | [] => none
  | ts :: rest =>
    match ts.type with
    | .structShape _ =>
      if ts.name = structName then some ts else findInSpecs structName rest
    | .otherShape _ => findInSpecs structName rest

/-- Go `findRequestedStructType`: scan top-level declarations in file order,
skipping non-type declarations, and return the first struct-shaped type spec
with the requested name; `none` when the scan ends without a match. -/
def findRequestedStructType (decls : List Decl) (structName : Ident) : Option TypeSpec :=
  match decls with
  | [] => none
  | .typeDecl specs :: rest =>
    match findInSpecs structName specs with
    | some ts => some ts
    | none => findRequestedStructType rest structName
  | .otherDecl :: rest => findRequestedStructType rest structName

/-- Go `funcTypeIdent`: the name of the shared functional-option function
type, `fmt.Sprintf("%sFieldSetter", casedStructName)` where the struct name
is first-char-uppercased when `exportFnType` and first-char-lowercased
otherwise. -/
def funcTypeIdent (structName : Ident) (exportFnType : Bool) : Ident :=
  (if exportFnType then withFirstCharUppper structName else withFirstCharLower structName)
    ++ strBytes "FieldSetter"

/-- The function literal built by Go `getInnerFn`: one parameter, and a body
consisting of exactly one assignment `assignLhsX.assignLhsSel = assignRhs`. -/
structure FuncLit where
  paramName : Ident
  paramType : TypeExpr
  assignLhsX : Ident
  assignLhsSel : Ident
  assignRhs : Ident
  deriving DecidableEq

/-- Go `getInnerFn`: the inner closure of a setter.  Its parameter is named
`withFirstCharLower(structName) + "Gen"`; the assignment's left-hand side
selects the field from that same parameter identifier, and its right-hand
side is the outer parameter identifier. -/
def getInnerFn (structTypeIdent fieldIdent outerParamIdent : Ident)
    (innerParamType : TypeExpr) : FuncLit :=
  let paramIdent := withFirstCharLower structTypeIdent ++ strBytes "Gen"
  { paramName := paramIdent
    paramType := innerParamType
    assignLhsX := paramIdent
    assignLhsSel := fieldIdent
    assignRhs := outerParamIdent }

/-- A synthesized setter declaration (Go `ast.FuncDecl` as `withFuncs` builds
it): name, one parameter, one named result type, and a body that returns the
inner function literal. -/
structure FuncDecl where
  name : Ident
  paramName : Ident
  paramType : TypeExpr
  resultType : Ident
  body : FuncLit
  deriving DecidableEq

/-- The `newFunc` value built in the body of `withFuncs`'s name loop for one
field name: named `"Set" + withFirstCharUppper(fieldName)`, taking a
parameter `withFirstCharLower(fieldName) + "Gen"` of the field's type,
returning the shared function type, with `getInnerFn`'s literal as body. -/
def mkSetterFunc (structName fnIdent : Ident) (fnParamType : TypeExpr)
    (fieldName : Ident) (fieldType : TypeExpr) : FuncDecl :=
  let outerParamIdent := withFirstCharLower fieldName ++ strBytes "Gen"
  { name := strBytes "Set" ++ withFirstCharUppper fieldName
    paramName := outerParamIdent
    paramType := fieldType
    resultType := fnIdent
    body := getInnerFn structName fieldName outerParamIdent fnParamType }

/-- A declaration of the synthesized output file: the function-type
declaration added by `withTypeDef` (name and the type's single parameter
type), or a setter function declaration. -/
inductive OutDecl where
  | typeDef : Ident → TypeExpr → OutDecl
  | funcDecl : FuncDecl → OutDecl
  deriving DecidableEq

/-- Go `withTypeDef`: append the function-type declaration (one parameter of
the pointer-to-struct type, no results) to the output declarations. -/
def withTypeDef (astOut : List OutDecl) (fnIdent : Ident) (paramType : TypeExpr) :
    List OutDecl :=
  astOut ++ [OutDecl.typeDef fnIdent paramType]

/-- The inner loop of `withFuncs` over one field group's names: a name in the
skip set is skipped; a name whose first byte is Latin-1 lowercase is skipped
unless `generateForUnexportedFields`; every other name yields a setter. -/
def genGroupFuncs (structName fnIdent : Ident) (fnParamType : TypeExpr)
    (generateForUnexportedFields : Bool) (skipStructFields : List Ident)
    (g : FieldGroup) : List FuncDecl :=
  g.names.filterMap fun fieldName =>
    if fieldName ∈ skipStructFields then none
    else if goIsLowerByte (headByte fieldName) && !generateForUnexportedFields then none
    else some (mkSetterFunc structName fnIdent fnParamType fieldName g.type)

/-- The field-group loop of `withFuncs`: an embedded group (no names) or a
group whose type mentions a selector is skipped whole when
`ignoreUnsupported` and aborts the run otherwise; a surviving group
contributes its `genGroupFuncs` setters in order. -/
def withFuncsAux (structName fnIdent : Ident) (fnParamType : TypeExpr)
    (generateForUnexportedFields ignoreUnsupported : Bool)
    (skipStructFields : List Ident) : List FieldGroup → Except GenError (List FuncDecl)
  | [] => Except.ok []
  | g :: rest =>
    if g.names.isEmpty then
      if ignoreUnsupported then
        withFuncsAux structName fnIdent fnParamType generateForUnexportedFields
          ignoreUnsupported skipStructFields rest
      else Except.error GenError.embeddedFieldsDisallowed
    else if containsSelector g.type then
      if ignoreUnsupported then
        withFuncsAux structName fnIdent fnParamType generateForUnexportedFields
          ignoreUnsupported skipStructFields rest
      else Except.error GenError.importedFieldType
    else
      match withFuncsAux structName fnIdent fnParamType generateForUnexportedFields
          ignoreUnsupported skipStructFields rest with
      | Except.error e => Except.error e
      | Except.ok l =>
        Except.ok (genGroupFuncs structName fnIdent fnParamType
          generateForUnexportedFields skipStructFields g ++ l)

/-- Go `withFuncs`: append one setter per applicable field name to `astOut`,
in struct order; fail on an unsupported group when not `ignoreUnsupported`,
and fail with `noFields` when zero setters were added.  The non-struct case
is the source's `panic("bad type for struct type")`. -/
def withFuncs (astOut : List OutDecl) (structType : TypeSpec) (fnIdent : Ident)
    (fnParamType : TypeExpr) (generateForUnexportedFields ignoreUnsupported : Bool)
    (skipStructFields : List Ident) : Except GenError (List OutDecl) :=
  match structType.type with
  | .otherShape _ => Except.error GenError.panicBadStructType
  | .structShape fields =>
    match withFuncsAux structType.name fnIdent fnParamType generateForUnexportedFields
        ignoreUnsupported skipStructFields fields with
    | Except.error e => Except.error e
    | Except.ok l =>
      if l.length = 0 then Except.error GenError.noFields
      else Except.ok (astOut ++ l.map OutDecl.funcDecl)

/-- The synthesized output file: package name copied from the input, and the
generated declarations. -/
structure OutFile where
  pkgName : Ident
  decls : List OutDecl
  deriving DecidableEq

/-- Go `run` minus the I/O collaborators (file reading, `go/parser`,
`go/printer`, file writing): locate the struct, build the function-type name
and the pointer-to-struct parameter type, emit the type definition, then the
setters.  An error from any stage aborts the run with no output value. -/
def run (astF : ParsedFile) (opts : flagOpts) : Except GenError OutFile :=
  match findRequestedStructType astF.decls opts.structTypeName with
  | none => Except.error GenError.typeNotFound
  | some structType =>
    let fnTypeIdent := funcTypeIdent structType.name opts.exportFnType
    let fnParamType := TypeExpr.star (TypeExpr.ident structType.name)
    let astOut := withTypeDef [] fnTypeIdent fnParamType
    match withFuncs astOut structType fnTypeIdent fnParamType
        opts.generateForUnexportedFields opts.ignoreUnsupported
        opts.skipStructFields with
    | Except.error e => Except.error e
    | Except.ok decls => Except.ok { pkgName := astF.pkgName, decls := decls }

/-! ## Specification-side characterizations

The definitions below restate the field-eligibility rules of spec §4.2 as
direct set/list computations, to be compared with the `withFuncs` traversal
by refinement theorems. -/

/-- Spec rule 1-2 trigger for a field group: it is embedded (no names) or its
type expression references a qualified name somewhere. -/
def groupBad (g : FieldGroup) : Bool :=
  g.names.isEmpty || containsSelector g.type

/-- Spec rules 3-5 for one surviving field name: kept when it is not in the
skip set and is exported-or-allowed (first byte not Latin-1 lowercase, or
`generateForUnexportedFields`). -/
def keepName (generateForUnexportedFields : Bool) (skipStructFields : List Ident)
    (n : Ident) : Bool :=
  !(decide (n ∈ skipStructFields))
    && (!(goIsLowerByte (headByte n)) || generateForUnexportedFields)

/-- The (name, type) pairs a single field group contributes to generation:
none when the group triggers rule 1-2, else its kept names in order, each
paired with the group's shared type. -/
def entriesOfGroup (generateForUnexportedFields : Bool) (skipStructFields : List Ident)
    (g : FieldGroup) : List (Ident × TypeExpr) :=
  if groupBad g then []
  else (g.names.filter (keepName generateForUnexportedFields skipStructFields)).map
    fun n => (n, g.type)

/-- All (name, type) pairs eligible for generation, in declaration order then
name order within a group. -/
def eligibleEntries (generateForUnexportedFields : Bool) (skipStructFields : List Ident) :
    List FieldGroup → List (Ident × TypeExpr)
  | [] => []
  | g :: rest =>
    entriesOfGroup generateForUnexportedFields skipStructFields g
      ++ eligibleEntries generateForUnexportedFields skipStructFields rest

/-- The names of all eligible fields, in order. -/
def eligibleNames (generateForUnexportedFields : Bool) (skipStructFields : List Ident)
    (fields : List FieldGroup) : List Ident :=
  (eligibleEntries generateForUnexportedFields skipStructFields fields).map Prod.fst

/-- Every field name of the struct, in declaration order then name order. -/
def allFieldNames : List FieldGroup → List Ident
  | [] => []
  | g :: rest => g.names ++ allFieldNames rest

/-- Whether a type declaration's underlying shape is a struct. -/
def isStructShapeB : TypeShape → Bool
  | .structShape _ => true
  | .otherShape _ => false

/-- The type specs of a declaration list, flattened in file order, for
characterizing `findRequestedStructType` as a first-match search. -/
def typeSpecsOf : List Decl → List TypeSpec
  | [] => []
  | .typeDecl specs :: rest => specs ++ typeSpecsOf rest
  | .otherDecl :: rest => typeSpecsOf rest

/-- The field each setter declaration of the output assigns (the selector on
the left-hand side of the inner closure's assignment), in output order. -/
def setterTargets (decls : List OutDecl) : List Ident :=
  decls.filterMap fun d =>
    match d with
    | .funcDecl fd => some fd.body.assignLhsSel
    | .typeDef _ _ => none

/-- The name of a declaration when it is a setter function declaration. -/
def outDeclFuncName : OutDecl → Option Ident
  | .funcDecl fd => some fd.name
  | .typeDef _ _ => none

/-! ## Concrete inputs for counterexamples and witnesses -/

/-- A file whose struct `A` has two field groups both naming the field `B`
(the Go parser accepts duplicate field names; only the type checker rejects
them). -/
def c1file : ParsedFile :=
  ⟨strBytes "main",
    [Decl.typeDecl [⟨strBytes "A", TypeShape.structShape
      [ ⟨[strBytes "B"], TypeExpr.ident (strBytes "int")⟩,
        ⟨[strBytes "B"], TypeExpr.ident (strBytes "bool")⟩ ]⟩]]⟩

/-- Options requesting struct `A`, exported function type, no unexported
fields, ignoring unsupported groups, empty skip set. -/
def c1opts : flagOpts := ⟨strBytes "A", true, false, true, []⟩

/-- The successful output of `run c1file c1opts`. -/
def c1out : OutFile := (run c1file c1opts).toOption.getD ⟨[], []⟩

/-- Spec scenario D: struct `A { C int; D bool }` with both fields in the
skip set. -/
def c2file : ParsedFile :=
  ⟨strBytes "main",
    [Decl.typeDecl [⟨strBytes "A", TypeShape.structShape
      [ ⟨[strBytes "C"], TypeExpr.ident (strBytes "int")⟩,
        ⟨[strBytes "D"], TypeExpr.ident (strBytes "bool")⟩ ]⟩]]⟩

/-- The field groups of `c2file`'s struct. -/
def c2fields : List FieldGroup :=
  [ ⟨[strBytes "C"], TypeExpr.ident (strBytes "int")⟩,
    ⟨[strBytes "D"], TypeExpr.ident (strBytes "bool")⟩ ]

/-- Options skipping both `C` and `D`. -/
def c2opts : flagOpts := ⟨strBytes "A", true, false, false, [strBytes "C", strBytes "D"]⟩

/-- A field-group list with one embedded group. -/
def c3fields : List FieldGroup := [⟨[], TypeExpr.ident (strBytes "E")⟩]

/-- A struct type spec whose only group is embedded. -/
def c3ts : TypeSpec := ⟨strBytes "A", TypeShape.structShape c3fields⟩

/-- Spec scenario E: a file declaring `type A string` (name matches, shape
does not). -/
def c4file : ParsedFile :=
  ⟨strBytes "main",
    [Decl.typeDecl [⟨strBytes "A", TypeShape.otherShape (TypeExpr.ident (strBytes "string"))⟩]]⟩

/-- Options requesting type `A` of `c4file`. -/
def c4opts : flagOpts := ⟨strBytes "A", true, false, true, []⟩

/-- A struct `A` whose single field is also named `A`. -/
def c8file : ParsedFile :=
  ⟨strBytes "main",
    [Decl.typeDecl [⟨strBytes "A", TypeShape.structShape
      [⟨[strBytes "A"], TypeExpr.ident (strBytes "int")⟩]⟩]]⟩

/-- Options for `c8file`: defaults, empty skip set. -/
def c8opts : flagOpts := ⟨strBytes "A", true, false, true, []⟩

/-- The successful output of `run c8file c8opts`. -/
def c8out : OutFile := (run c8file c8opts).toOption.getD ⟨[], []⟩

/-- The single setter declaration generated for field `A` of struct `A`. -/
def c8fd : FuncDecl :=
  mkSetterFunc (strBytes "A") (funcTypeIdent (strBytes "A") true)
    (TypeExpr.star (TypeExpr.ident (strBytes "A")))
    (strBytes "A") (TypeExpr.ident (strBytes "int"))

/-- A struct with two fields whose names differ only in the case of the
first character. -/
def c9file : ParsedFile :=
  ⟨strBytes "main",
    [Decl.typeDecl [⟨strBytes "A", TypeShape.structShape
      [ ⟨[strBytes "foo"], TypeExpr.ident (strBytes "int")⟩,
        ⟨[strBytes "Foo"], TypeExpr.ident (strBytes "int")⟩ ]⟩]]⟩

/-- Options for `c9file` with `generateForUnexportedFields` and an empty
skip set. -/
def c9opts : flagOpts := ⟨strBytes "A", true, true, true, []⟩

/-- A struct whose single field is named `あ` (U+3042, UTF-8 bytes
`E3 81 82`): the first byte is not an ASCII lowercase letter, yet `0xE3`
read as a Latin-1 code point is `ã`, which is lowercase. -/
def c10file : ParsedFile :=
  ⟨strBytes "main",
    [Decl.typeDecl [⟨strBytes "A", TypeShape.structShape
      [⟨[strBytes "あ"], TypeExpr.ident (strBytes "int")⟩]⟩]]⟩

/-- Options for `c10file`: `generateForUnexportedFields` off. -/
def c10opts : flagOpts := ⟨strBytes "A", true, false, true, []⟩

/-- Spec scenario A: struct
`A { B string; C int; D bool; e float32; F interface{} }`. -/
def wfields : List FieldGroup :=
  [ ⟨[strBytes "B"], TypeExpr.ident (strBytes "string")⟩,
    ⟨[strBytes "C"], TypeExpr.ident (strBytes "int")⟩,
    ⟨[strBytes "D"], TypeExpr.ident (strBytes "bool")⟩,
    ⟨[strBytes "e"], TypeExpr.ident (strBytes "float32")⟩,
    ⟨[strBytes "F"], TypeExpr.interfaceType⟩ ]

/-- The file declaring scenario A's struct. -/
def wfile : ParsedFile :=
  ⟨strBytes "main", [Decl.typeDecl [⟨strBytes "A", TypeShape.structShape wfields⟩]]⟩

/-- Scenario A options: exported function type, no unexported fields, empty
skip set. -/
def wopts : flagOpts := ⟨strBytes "A", true, false, true, []⟩

/-- The successful output of `run wfile wopts`. -/
def wout : OutFile := (run wfile wopts).toOption.getD ⟨[], []⟩

/-- The spec-level first-match predicate of the type locator: struct-shaped
and exactly the requested name. -/
def locatorPred (structName : Ident) (ts : TypeSpec) : Bool :=
  isStructShapeB ts.type && decide (ts.name = structName)

/-- The declarations of a successful run in canonical form: the function-type
declaration, then one setter per eligible entry, in order. -/
def canonicalDecls (tname : Ident) (opts : flagOpts) (fields : List FieldGroup) :
    List OutDecl :=
  OutDecl.typeDef (funcTypeIdent tname opts.exportFnType) (TypeExpr.star (TypeExpr.ident tname))
    :: (eligibleEntries opts.generateForUnexportedFields opts.skipStructFields fields).map
        fun e => OutDecl.funcDecl (mkSetterFunc tname (funcTypeIdent tname opts.exportFnType)
          (TypeExpr.star (TypeExpr.ident tname)) e.1 e.2)

/-- The successful output of `run c9file c9opts`. -/
def c9out : OutFile := (run c9file c9opts).toOption.getD ⟨[], []⟩

/-- The number of occurrences of an identifier in a list. -/
def countOccur (n : Ident) (l : List Ident) : Nat :=
  (l.filter fun m => decide (m = n)).length

/-! ## Theorems -/

/-- The name loop of `withFuncs` generates exactly the kept names, in order,
each as a `mkSetterFunc` declaration. -/
theorem genGroupFuncs_eq (sn fi : Ident) (pt : TypeExpr) (gfu : Bool)
    (skip : List Ident) (g : FieldGroup) :
    genGroupFuncs sn fi pt gfu skip g
      = (g.names.filter (keepName gfu skip)).map
          (fun n => mkSetterFunc sn fi pt n g.type) := by
  unfold genGroupFuncs
  induction g.names with
  | nil => rfl
  | cons n rest ih =>
    rw [List.filterMap_cons, List.filter_cons, ih]
    by_cases hs : n ∈ skip
    · simp [hs, keepName]
    · cases hl : goIsLowerByte (headByte n) <;> cases gfu <;> simp [hs, hl, keepName]

/-- Completed group traversals produce exactly the eligible entries' setters. -/
theorem withFuncsAux_ok_of (sn fi : Ident) (pt : TypeExpr) (gfu iU : Bool)
    (skip : List Ident) (fields : List FieldGroup)
    (h : ∀ g ∈ fields, groupBad g = true → iU = true) :
    withFuncsAux sn fi pt gfu iU skip fields
      = Except.ok ((eligibleEntries gfu skip fields).map
          fun e => mkSetterFunc sn fi pt e.1 e.2) := by
  induction fields with
  | nil => rfl
  | cons g rest ih =>
    have hrest := ih fun g' hg' => h g' (List.mem_cons_of_mem _ hg')
    have hg := h g (List.mem_cons_self _ _)
    cases hE : g.names.isEmpty with
    | true =>
      have hiU : iU = true := hg (by simp [groupBad, hE])
      subst hiU
      simp [withFuncsAux, hE, hrest, eligibleEntries, entriesOfGroup, groupBad]
    | false =>
      cases hS : containsSelector g.type with
      | true =>
        have hiU : iU = true := hg (by simp [groupBad, hS])
        subst hiU
        simp [withFuncsAux, hE, hS, hrest, eligibleEntries, entriesOfGroup, groupBad]
      | false =>
        simp [withFuncsAux, hE, hS, hrest, eligibleEntries, entriesOfGroup, groupBad,
          genGroupFuncs_eq]

/-- A completed traversal implies every rule-1-2 group was ignorable. -/
theorem withFuncsAux_ok_elim (sn fi : Ident) (pt : TypeExpr) (gfu iU : Bool)
    (skip : List Ident) (fields : List FieldGroup) (l : List FuncDecl)
    (h : withFuncsAux sn fi pt gfu iU skip fields = Except.ok l) :
    ∀ g ∈ fields, groupBad g = true → iU = true := by
  induction fields generalizing l with
  | nil => intro g hg; exact absurd hg (List.not_mem_nil g)
  | cons g rest ih =>
    intro g' hg' hbad
    cases hE : g.names.isEmpty with
    | true =>
      cases hiU : iU with
      | true => rfl
      | false => rw [withFuncsAux, hE, hiU] at h; simp at h
    | false =>
      cases hS : containsSelector g.type with
      | true =>
        cases hiU : iU with
        | true => rfl
        | false => rw [withFuncsAux, hE, hiU] at h; simp [hS] at h
      | false =>
        rw [withFuncsAux, hE] at h
        simp only [hS, Bool.false_eq_true, if_false] at h
        rcases List.mem_cons.mp hg' with rfl | hmem
        · rw [groupBad, hE, hS] at hbad; simp at hbad
        · cases haux : withFuncsAux sn fi pt gfu iU skip rest with
          | error e => rw [haux] at h; simp at h
          | ok l' => exact ih l' haux g' hmem hbad

/-- An unignored rule-1-2 group aborts the traversal with one of the two
unsupported-field errors. -/
theorem withFuncsAux_error_of (sn fi : Ident) (pt : TypeExpr) (gfu : Bool)
    (skip : List Ident) (fields : List FieldGroup)
    (hbad : ∃ g ∈ fields, groupBad g = true) :
    withFuncsAux sn fi pt gfu false skip fields = Except.error GenError.embeddedFieldsDisallowed
      ∨ withFuncsAux sn fi pt gfu false skip fields = Except.error GenError.importedFieldType := by
  induction fields with
  | nil => rcases hbad with ⟨g, hg, _⟩; exact absurd hg (List.not_mem_nil g)
  | cons g rest ih =>
    cases hE : g.names.isEmpty with
    | true => left; rw [withFuncsAux, hE]; rfl
    | false =>
      cases hS : containsSelector g.type with
      | true => right; rw [withFuncsAux, hE]; simp [hS]
      | false =>
        have hrest : ∃ g ∈ rest, groupBad g = true := by
          rcases hbad with ⟨g', hg', hbad'⟩
          rcases List.mem_cons.mp hg' with rfl | hmem
          · rw [groupBad, hE, hS] at hbad'; simp at hbad'
          · exact ⟨g', hmem, hbad'⟩
        rw [withFuncsAux, hE]
        simp only [hS, Bool.false_eq_true, if_false]
        rcases ih hrest with h | h <;> rw [h]
        · left; rfl
        · right; rfl

/-- Adding a name that a group does not declare to the skip set leaves the
group's generated setters unchanged. -/
theorem genGroupFuncs_skip_cons (sn fi : Ident) (pt : TypeExpr) (gfu : Bool)
    (skip : List Ident) (n : Ident) (g : FieldGroup) (h : n ∉ g.names) :
    genGroupFuncs sn fi pt gfu (n :: skip) g = genGroupFuncs sn fi pt gfu skip g := by
  obtain ⟨ns, ty⟩ := g
  unfold genGroupFuncs
  simp only [] at h ⊢
  revert h
  induction ns with
  | nil => intro h; rfl
  | cons m rest ih =>
    intro h
    have hmn : m ≠ n := fun he => h (he ▸ List.mem_cons_self _ _)
    have hrest : n ∉ rest := fun hm => h (List.mem_cons_of_mem _ hm)
    rw [List.filterMap_cons, List.filterMap_cons, ih hrest]
    by_cases hms : m ∈ skip
    · rw [if_pos (List.mem_cons_of_mem _ hms), if_pos hms]
    · rw [if_neg (by simp [List.mem_cons, hmn, hms]), if_neg hms]

/-- Adding a name no group declares to the skip set leaves the traversal
unchanged. -/
theorem withFuncsAux_skip_cons (sn fi : Ident) (pt : TypeExpr) (gfu iU : Bool)
    (skip : List Ident) (n : Ident) (fields : List FieldGroup)
    (h : n ∉ allFieldNames fields) :
    withFuncsAux sn fi pt gfu iU (n :: skip) fields
      = withFuncsAux sn fi pt gfu iU skip fields := by
  induction fields with
  | nil => rfl
  | cons g rest ih =>
    have hg : n ∉ g.names := fun hm => h (by rw [allFieldNames]; exact List.mem_append_left _ hm)
    have hrest : n ∉ allFieldNames rest :=
      fun hm => h (by rw [allFieldNames]; exact List.mem_append_right _ hm)
    rw [withFuncsAux, withFuncsAux, ih hrest, genGroupFuncs_skip_cons sn fi pt gfu skip n g hg]

/-- With `ignoreUnsupported`, the traversal coincides with the traversal of
the struct with every rule-1-2 group removed: such groups are skipped in
their entirety. -/
theorem withFuncsAux_ignore_filter (sn fi : Ident) (pt : TypeExpr) (gfu : Bool)
    (skip : List Ident) (fields : List FieldGroup) :
    withFuncsAux sn fi pt gfu true skip fields
      = withFuncsAux sn fi pt gfu true skip (fields.filter fun g => !groupBad g) := by
  induction fields with
  | nil => rfl
  | cons g rest ih =>
    rw [List.filter_cons]
    cases hE : g.names.isEmpty with
    | true =>
      have : (!groupBad g) = false := by simp [groupBad, hE]
      rw [this, if_neg (by simp)]
      rw [withFuncsAux, hE]
      simpa using ih
    | false =>
      cases hS : containsSelector g.type with
      | true =>
        have : (!groupBad g) = false := by simp [groupBad, hE, hS]
        rw [this, if_neg (by simp)]
        rw [withFuncsAux, hE]
        simp only [hS, Bool.false_eq_true, if_false, if_true]
        simpa using ih
      | false =>
        have : (!groupBad g) = true := by simp [groupBad, hE, hS]
        rw [this, if_pos (by simp)]
        rw [withFuncsAux, withFuncsAux, hE, ih]

/-- The inner spec loop is a first-match search under `locatorPred`. -/
theorem findInSpecs_eq_find? (structName : Ident) (specs : List TypeSpec) :
    findInSpecs structName specs = specs.find? (locatorPred structName) := by
  induction specs with
  | nil => rfl
  | cons ts rest ih =>
    rw [findInSpecs]
    cases hty : ts.type with
    | structShape fields =>
      by_cases hn : ts.name = structName
      · rw [if_pos hn, List.find?_cons_of_pos _ (by simp [locatorPred, isStructShapeB, hty, hn])]
      · rw [if_neg hn, ih, List.find?_cons_of_neg _ (by simp [locatorPred, hn])]
    | otherShape t =>
      rw [ih, List.find?_cons_of_neg _ (by simp [locatorPred, isStructShapeB, hty])]

/-- `findRequestedStructType` is a first-match search over the file's type
specs flattened in file order. -/
theorem findRequestedStructType_eq_find? (decls : List Decl) (structName : Ident) :
    findRequestedStructType decls structName
      = (typeSpecsOf decls).find? (locatorPred structName) := by
  induction decls with
  | nil => rfl
  | cons d rest ih =>
    cases d with
    | typeDecl specs =>
      rw [findRequestedStructType, typeSpecsOf, List.find?_append, findInSpecs_eq_find?, ih]
      cases specs.find? (locatorPred structName) <;> simp [Option.or]
    | otherDecl => rw [findRequestedStructType, typeSpecsOf, ih]

/-- A located type spec is struct-shaped and carries the requested name. -/
theorem findRequestedStructType_some_elim (decls : List Decl) (structName : Ident)
    (ts : TypeSpec) (h : findRequestedStructType decls structName = some ts) :
    ts.name = structName ∧ ∃ fields, ts.type = TypeShape.structShape fields := by
  rw [findRequestedStructType_eq_find?] at h
  have hp := List.find?_some h
  rw [locatorPred, Bool.and_eq_true] at hp
  refine ⟨of_decide_eq_true hp.2, ?_⟩
  cases hty : ts.type with
  | structShape fields => exact ⟨fields, rfl⟩
  | otherShape t => rw [isStructShapeB.eq_def, hty] at hp; simp at hp

theorem run_eq_of_find_none (f : ParsedFile) (opts : flagOpts)
    (hfind : findRequestedStructType f.decls opts.structTypeName = none) :
    run f opts = Except.error GenError.typeNotFound := by
  unfold run; rw [hfind]

theorem run_eq_of_find_struct (f : ParsedFile) (opts : flagOpts) (tname : Ident)
    (fields : List FieldGroup)
    (hfind : findRequestedStructType f.decls opts.structTypeName
      = some ⟨tname, TypeShape.structShape fields⟩) :
    run f opts
      = match withFuncsAux tname (funcTypeIdent tname opts.exportFnType)
          (TypeExpr.star (TypeExpr.ident tname)) opts.generateForUnexportedFields
          opts.ignoreUnsupported opts.skipStructFields fields with
        | Except.error e => Except.error e
        | Except.ok l =>
          if l.length = 0 then Except.error GenError.noFields
          else Except.ok ⟨f.pkgName,
            withTypeDef [] (funcTypeIdent tname opts.exportFnType)
                (TypeExpr.star (TypeExpr.ident tname))
              ++ l.map OutDecl.funcDecl⟩ := by
  unfold run; rw [hfind]
  cases haux : withFuncsAux tname (funcTypeIdent tname opts.exportFnType)
      (TypeExpr.star (TypeExpr.ident tname)) opts.generateForUnexportedFields
      opts.ignoreUnsupported opts.skipStructFields fields with
  | error e => simp [withFuncs, haux]
  | ok l =>
    by_cases hl : l.length = 0 <;> simp [withFuncs, haux, hl]

/-- Master characterization of a successful run: the struct is located, every
rule-1-2 group is ignorable, at least one field is eligible, and the output
is exactly the canonical declaration list. -/
theorem run_ok_iff (f : ParsedFile) (opts : flagOpts) (out : OutFile) :
    run f opts = Except.ok out ↔
      ∃ tname fields,
        findRequestedStructType f.decls opts.structTypeName
            = some ⟨tname, TypeShape.structShape fields⟩
          ∧ (∀ g ∈ fields, groupBad g = true → opts.ignoreUnsupported = true)
          ∧ eligibleEntries opts.generateForUnexportedFields opts.skipStructFields fields ≠ []
          ∧ out = ⟨f.pkgName, canonicalDecls tname opts fields⟩ := by
  constructor
  · intro h
    cases hfind : findRequestedStructType f.decls opts.structTypeName with
    | none => rw [run_eq_of_find_none f opts hfind] at h; simp at h
    | some ts =>
      obtain ⟨hname, fields, hshape⟩ := findRequestedStructType_some_elim _ _ _ hfind
      obtain ⟨tname, tshape⟩ := ts
      cases hshape
      rw [run_eq_of_find_struct f opts tname fields hfind] at h
      cases haux : withFuncsAux tname (funcTypeIdent tname opts.exportFnType)
          (TypeExpr.star (TypeExpr.ident tname)) opts.generateForUnexportedFields
          opts.ignoreUnsupported opts.skipStructFields fields with
      | error e => rw [haux] at h; simp at h
      | ok l =>
        rw [haux] at h
        dsimp only at h
        by_cases hl : l.length = 0
        · rw [if_pos hl] at h; simp at h
        · rw [if_neg hl] at h
          have hall := withFuncsAux_ok_elim _ _ _ _ _ _ _ _ haux
          have hcanon := withFuncsAux_ok_of tname (funcTypeIdent tname opts.exportFnType)
            (TypeExpr.star (TypeExpr.ident tname)) opts.generateForUnexportedFields
            opts.ignoreUnsupported opts.skipStructFields fields hall
          rw [haux] at hcanon
          have hle : l = (eligibleEntries opts.generateForUnexportedFields
              opts.skipStructFields fields).map
                fun e => mkSetterFunc tname (funcTypeIdent tname opts.exportFnType)
                  (TypeExpr.star (TypeExpr.ident tname)) e.1 e.2 :=
            Except.ok.inj hcanon
          refine ⟨tname, fields, rfl, hall, ?_, ?_⟩
          · intro hnil
            exact hl (by rw [hle, hnil]; rfl)
          · have hout := Except.ok.inj h.symm
            rw [hout, hle]
            have : withTypeDef [] (funcTypeIdent tname opts.exportFnType)
                  (TypeExpr.star (TypeExpr.ident tname))
                ++ ((eligibleEntries opts.generateForUnexportedFields
                  opts.skipStructFields fields).map
                    fun e => mkSetterFunc tname (funcTypeIdent tname opts.exportFnType)
                      (TypeExpr.star (TypeExpr.ident tname)) e.1 e.2).map OutDecl.funcDecl
                = canonicalDecls tname opts fields := by
              rw [canonicalDecls, withTypeDef, List.map_map]
              rfl
            rw [this]
  · rintro ⟨tname, fields, hfind, hall, hne, hout⟩
    rw [run_eq_of_find_struct f opts tname fields hfind]
    have hcanon := withFuncsAux_ok_of tname (funcTypeIdent tname opts.exportFnType)
      (TypeExpr.star (TypeExpr.ident tname)) opts.generateForUnexportedFields
      opts.ignoreUnsupported opts.skipStructFields fields hall
    rw [hcanon]
    dsimp only
    have hl : ((eligibleEntries opts.generateForUnexportedFields
        opts.skipStructFields fields).map
          fun e => mkSetterFunc tname (funcTypeIdent tname opts.exportFnType)
            (TypeExpr.star (TypeExpr.ident tname)) e.1 e.2).length ≠ 0 := by
      rw [List.length_map]
      intro hzero
      exact hne (List.eq_nil_of_length_eq_zero hzero)
    rw [if_neg hl, hout]
    have : withTypeDef [] (funcTypeIdent tname opts.exportFnType)
          (TypeExpr.star (TypeExpr.ident tname))
        ++ ((eligibleEntries opts.generateForUnexportedFields
          opts.skipStructFields fields).map
            fun e => mkSetterFunc tname (funcTypeIdent tname opts.exportFnType)
              (TypeExpr.star (TypeExpr.ident tname)) e.1 e.2).map OutDecl.funcDecl
        = canonicalDecls tname opts fields := by
      rw [canonicalDecls, withTypeDef, List.map_map]
      rfl
    rw [this]

/-- When the struct is found, every rule-1-2 group is ignorable, and no field
is eligible, the run fails with the empty-result error. -/
theorem run_noFields_of_empty (f : ParsedFile) (opts : flagOpts) (tname : Ident)
    (fields : List FieldGroup)
    (hfind : findRequestedStructType f.decls opts.structTypeName
      = some ⟨tname, TypeShape.structShape fields⟩)
    (hall : ∀ g ∈ fields, groupBad g = true → opts.ignoreUnsupported = true)
    (hempty : eligibleEntries opts.generateForUnexportedFields opts.skipStructFields fields
      = []) :
    run f opts = Except.error GenError.noFields := by
  rw [run_eq_of_find_struct f opts tname fields hfind]
  have hcanon := withFuncsAux_ok_of tname (funcTypeIdent tname opts.exportFnType)
    (TypeExpr.star (TypeExpr.ident tname)) opts.generateForUnexportedFields
    opts.ignoreUnsupported opts.skipStructFields fields hall
  rw [hcanon, hempty]
  rfl

/-- The setter targets of the canonical output are exactly the eligible
names, in order. -/
theorem setterTargets_canonical (tname : Ident) (opts : flagOpts)
    (fields : List FieldGroup) :
    setterTargets (canonicalDecls tname opts fields)
      = eligibleNames opts.generateForUnexportedFields opts.skipStructFields fields := by
  rw [canonicalDecls, setterTargets, List.filterMap_cons, eligibleNames]
  dsimp only
  rw [List.filterMap_map]
  have : ∀ e : Ident × TypeExpr,
      ((fun d => match d with
        | OutDecl.funcDecl fd => some fd.body.assignLhsSel
        | OutDecl.typeDef _ _ => none) ∘
        fun e => OutDecl.funcDecl (mkSetterFunc tname (funcTypeIdent tname opts.exportFnType)
          (TypeExpr.star (TypeExpr.ident tname)) e.1 e.2)) e
      = (some ∘ Prod.fst) e := by
    intro e; rfl
  rw [List.filterMap_congr (fun e _ => this e), List.filterMap_eq_map]

/-- The eligible names are an order-preserving selection from the struct's
field names. -/
theorem eligibleNames_sublist (gfu : Bool) (skip : List Ident)
    (fields : List FieldGroup) :
    (eligibleNames gfu skip fields).Sublist (allFieldNames fields) := by
  induction fields with
  | nil => exact List.nil_sublist _
  | cons g rest ih =>
    rw [eligibleNames, eligibleEntries, List.map_append, allFieldNames]
    refine List.Sublist.append ?_ ih
    rw [entriesOfGroup]
    by_cases hb : groupBad g = true
    · rw [if_pos hb]; exact List.nil_sublist _
    · rw [if_neg hb, List.map_map]
      have : (Prod.fst ∘ fun n => ((n, g.type) : Ident × TypeExpr)) = id := rfl
      rw [this, List.map_id]
      exact List.filter_sublist _

theorem countOccur_cons (n m : Ident) (rest : List Ident) :
    countOccur n (m :: rest) = (if m = n then 1 else 0) + countOccur n rest := by
  rw [countOccur, countOccur, List.filter_cons]
  by_cases h : m = n
  · simp [h, Nat.add_comm]
  · simp [h]

theorem countOccur_eq_zero (n : Ident) (l : List Ident) (h : n ∉ l) :
    countOccur n l = 0 := by
  induction l with
  | nil => rfl
  | cons m rest ih =>
    rw [countOccur_cons]
    have hmn : ¬(m = n) := fun he => h (he ▸ List.mem_cons_self _ _)
    rw [if_neg hmn, ih fun hm => h (List.mem_cons_of_mem _ hm)]

theorem countOccur_eq_one (n : Ident) (l : List Ident) (hd : l.Nodup) (h : n ∈ l) :
    countOccur n l = 1 := by
  induction l with
  | nil => cases h
  | cons m rest ih =>
    rw [countOccur_cons]
    rcases List.mem_cons.mp h with rfl | hm
    · rw [if_pos rfl, countOccur_eq_zero n rest (List.nodup_cons.mp hd).1]
    · have hmn : ¬(m = n) := fun he => (List.nodup_cons.mp hd).1 (he ▸ hm)
      rw [if_neg hmn, ih (List.nodup_cons.mp hd).2 hm]

/-- C1 counterexample: the Go parser accepts a struct with two identically
named fields, `run` succeeds on it, and the output contains two setter
declarations assigning the field name `B` — not "exactly one setter per
non-excluded field name" as the claim states for every successful run. -/
theorem duplicate_field_names_two_setters :
    run c1file c1opts = Except.ok c1out
      ∧ setterTargets c1out.decls = [strBytes "B", strBytes "B"]
      ∧ countOccur (strBytes "B") (setterTargets c1out.decls) = 2 :=
  ⟨rfl, by decide, by decide⟩

/-- C1 amended: for every successful run on a struct whose field names are
pairwise distinct, each field name has exactly one setter assigning it when
it is eligible (not excluded by the embedded-group rule, the imported-type
rule, the skip set, or the unexported-field rule), and no setter otherwise;
names that are not fields of the struct get no setter either. -/
theorem setter_count_one_iff_eligible (f : ParsedFile) (opts : flagOpts) (out : OutFile)
    (tname : Ident) (fields : List FieldGroup)
    (hrun : run f opts = Except.ok out)
    (hfind : findRequestedStructType f.decls opts.structTypeName
      = some ⟨tname, TypeShape.structShape fields⟩)
    (hnodup : (allFieldNames fields).Nodup) (n : Ident) :
    countOccur n (setterTargets out.decls)
      = if n ∈ eligibleNames opts.generateForUnexportedFields opts.skipStructFields fields
        then 1 else 0 := by
  obtain ⟨tname', fields', hfind', hall, hne, hout⟩ := (run_ok_iff f opts out).mp hrun
  rw [hfind] at hfind'
  obtain ⟨hn, hf⟩ : tname = tname' ∧ fields = fields' := by
    have := Option.some.inj hfind'
    exact ⟨congrArg TypeSpec.name this,
      by
        have h2 := congrArg TypeSpec.type this
        simp only at h2
        exact TypeShape.structShape.inj h2⟩
  subst hn; subst hf
  rw [hout]
  show countOccur n (setterTargets (canonicalDecls tname opts fields)) = _
  rw [setterTargets_canonical]
  have hnd : (eligibleNames opts.generateForUnexportedFields
      opts.skipStructFields fields).Nodup :=
    (eligibleNames_sublist _ _ _).nodup hnodup
  by_cases hmem : n ∈ eligibleNames opts.generateForUnexportedFields
      opts.skipStructFields fields
  · rw [if_pos hmem]
    exact countOccur_eq_one n _ hnd hmem
  · rw [if_neg hmem]
    exact countOccur_eq_zero n _ hmem

/-- C2: when the struct is located, every embedded or imported-type group is
ignorable, and every field name is filtered out (skip set, unexported-ness,
or unsupported-skip), the run fails with the empty-result error `noFields`
and returns no output value at all; moreover no successful run of any input
ever has the function-type declaration standing alone — every success is the
type declaration followed by at least one setter. -/
theorem zero_output_law (f : ParsedFile) (opts : flagOpts) (tname : Ident)
    (fields : List FieldGroup)
    (hfind : findRequestedStructType f.decls opts.structTypeName
      = some ⟨tname, TypeShape.structShape fields⟩)
    (hall : ∀ g ∈ fields, groupBad g = true → opts.ignoreUnsupported = true)
    (hempty : eligibleEntries opts.generateForUnexportedFields
      opts.skipStructFields fields = []) :
    run f opts = Except.error GenError.noFields
      ∧ ∀ (g : ParsedFile) (o : flagOpts) (out : OutFile),
          run g o = Except.ok out →
          ∃ fnName paramType rest,
            out.decls = OutDecl.typeDef fnName paramType :: rest ∧ rest ≠ [] := by
  refine ⟨run_noFields_of_empty f opts tname fields hfind hall hempty, ?_⟩
  intro g o out hrun
  obtain ⟨tname', fields', _, _, hne, hout⟩ := (run_ok_iff g o out).mp hrun
  refine ⟨funcTypeIdent tname' o.exportFnType, TypeExpr.star (TypeExpr.ident tname'),
    (eligibleEntries o.generateForUnexportedFields o.skipStructFields fields').map
      fun e => OutDecl.funcDecl (mkSetterFunc tname' (funcTypeIdent tname' o.exportFnType)
        (TypeExpr.star (TypeExpr.ident tname')) e.1 e.2), ?_, ?_⟩
  · rw [hout]; rfl
  · intro hnil
    rw [List.map_eq_nil_iff] at hnil
    exact hne hnil

/-- Embedded-or-contains-selector in propositional form. -/
theorem groupBad_iff (g : FieldGroup) :
    groupBad g = true ↔ (g.names = [] ∨ containsSelector g.type = true) := by
  rw [groupBad, Bool.or_eq_true, List.isEmpty_iff]

/-- C3: `withFuncs` fails with one of the two unsupported-field errors if
and only if `ignoreUnsupported` is false and some group is embedded (has no
names) or its type expression contains a qualified reference anywhere in its
syntax (`containsSelector` is recursive, so nesting under a pointer, array,
or map is included); the characterization does not mention the skip set or
`generateForUnexportedFields`, so a matching group causes the error even if
all its names are in the skip set — the group-level checks precede the
per-name rules.  When `ignoreUnsupported` is true, the result equals that of
the struct with every such group deleted whole. -/
theorem unsupported_group_error_iff (astOut : List OutDecl) (ts : TypeSpec) (fi : Ident)
    (pt : TypeExpr) (gfu iU : Bool) (skip : List Ident) (fields : List FieldGroup)
    (hty : ts.type = TypeShape.structShape fields) :
    ((withFuncs astOut ts fi pt gfu iU skip = Except.error GenError.embeddedFieldsDisallowed
        ∨ withFuncs astOut ts fi pt gfu iU skip = Except.error GenError.importedFieldType)
      ↔ (iU = false ∧ ∃ g ∈ fields, g.names = [] ∨ containsSelector g.type = true))
    ∧ (iU = true → withFuncs astOut ts fi pt gfu iU skip
        = withFuncs astOut ⟨ts.name, TypeShape.structShape
            (fields.filter fun g => !groupBad g)⟩ fi pt gfu iU skip) := by
  obtain ⟨tsn, tst⟩ := ts
  simp only at hty
  subst hty
  constructor
  · constructor
    · intro h
      have hiU : iU = false := by
        cases hiUc : iU with
        | false => rfl
        | true =>
          exfalso
          have hcanon := withFuncsAux_ok_of tsn fi pt gfu iU skip fields
            fun g _ _ => hiUc
          rcases h with h | h <;> rw [withFuncs] at h <;> dsimp only at h <;>
            rw [hcanon] at h <;> dsimp only at h <;>
            by_cases hl : eligibleEntries gfu skip fields = [] <;>
            simp [hl] at h
      subst hiU
      refine ⟨rfl, ?_⟩
      by_contra hno
      push_neg at hno
      have hall : ∀ g ∈ fields, groupBad g = true → False := by
        intro g hg hbad
        rcases (groupBad_iff g).mp hbad with h1 | h2
        · rcases hno g hg with ⟨hn, _⟩; exact hn h1
        · rcases hno g hg with ⟨_, hs⟩; exact hs h2
      have hcanon := withFuncsAux_ok_of tsn fi pt gfu false skip fields
        fun g hg hbad => absurd hbad (fun hb => hall g hg hb)
      rcases h with h | h <;> rw [withFuncs] at h <;> dsimp only at h <;>
        rw [hcanon] at h <;> dsimp only at h <;>
        by_cases hl : eligibleEntries gfu skip fields = [] <;>
        simp [hl] at h
    · rintro ⟨hiU, g, hg, hbad⟩
      subst hiU
      have := withFuncsAux_error_of tsn fi pt gfu skip fields
        ⟨g, hg, (groupBad_iff g).mpr hbad⟩
      rcases this with h | h
      · left; rw [withFuncs]; dsimp only; rw [h]
      · right; rw [withFuncs]; dsimp only; rw [h]
  · intro hiU
    subst hiU
    rw [withFuncs, withFuncs]
    dsimp only
    rw [withFuncsAux_ignore_filter tsn fi pt gfu skip fields]

/-- C4: the type locator is a first-match search, in file order, over the
flattened type specs, for a spec that is BOTH struct-shaped AND exactly the
requested name; when it finds nothing, `run` fails with the type-not-found
error, and in particular when every spec carrying the requested name is not
struct-shaped the error is that same type-not-found error. -/
theorem locator_first_struct_match (f : ParsedFile) (opts : flagOpts) :
    findRequestedStructType f.decls opts.structTypeName
        = (typeSpecsOf f.decls).find? (locatorPred opts.structTypeName)
      ∧ (findRequestedStructType f.decls opts.structTypeName = none →
          run f opts = Except.error GenError.typeNotFound)
      ∧ ((∀ ts ∈ typeSpecsOf f.decls,
            ts.name = opts.structTypeName → isStructShapeB ts.type = false) →
          run f opts = Except.error GenError.typeNotFound) := by
  refine ⟨findRequestedStructType_eq_find? _ _, run_eq_of_find_none f opts, ?_⟩
  intro hnone
  apply run_eq_of_find_none f opts
  rw [findRequestedStructType_eq_find?]
  rw [List.find?_eq_none]
  intro ts hts
  rw [locatorPred]
  by_cases hn : ts.name = opts.structTypeName
  · rw [hnone ts hts hn]
    simp
  · simp [hn]

/-- C5: in every successful output, every setter declaration is named
`"Set" ++ withFirstCharUppper(fieldName)` — one formula for all generated
fields, whatever the field's own case — and the output's single function-type
declaration is named by `funcTypeIdent`, which upper-cases the struct name's
first character exactly when `exportFnType` is true and lower-cases it
otherwise, independent of any field. -/
theorem setter_naming_invariant (f : ParsedFile) (opts : flagOpts) (out : OutFile)
    (hrun : run f opts = Except.ok out) :
    (∀ fd : FuncDecl, OutDecl.funcDecl fd ∈ out.decls →
        fd.name = strBytes "Set" ++ withFirstCharUppper fd.body.assignLhsSel)
      ∧ ∃ tname rest,
          out.decls = OutDecl.typeDef (funcTypeIdent tname opts.exportFnType)
              (TypeExpr.star (TypeExpr.ident tname)) :: rest
            ∧ funcTypeIdent tname true = withFirstCharUppper tname ++ strBytes "FieldSetter"
            ∧ funcTypeIdent tname false = withFirstCharLower tname ++ strBytes "FieldSetter" := by
  obtain ⟨tname, fields, hfind, hall, hne, hout⟩ := (run_ok_iff f opts out).mp hrun
  subst hout
  constructor
  · intro fd hmem
    rw [canonicalDecls] at hmem
    rcases List.mem_cons.mp hmem with habs | hmem'
    · exact absurd habs (by simp)
    · rcases List.mem_map.mp hmem' with ⟨e, _, heq⟩
      have : fd = mkSetterFunc tname (funcTypeIdent tname opts.exportFnType)
          (TypeExpr.star (TypeExpr.ident tname)) e.1 e.2 := by
        exact (OutDecl.funcDecl.inj heq).symm
      rw [this]
      rfl
  · exact ⟨tname, _, rfl, rfl, rfl⟩

/-- C6: every successful output is exactly one function-type declaration
followed by the setter declarations of the eligible entries, in the order the
fields appear in the struct (group declaration order, then name order within
a group); the setter targets form a sublist of the struct's field names, so
skipped fields are simply absent and nothing is reordered. -/
theorem output_declaration_order (f : ParsedFile) (opts : flagOpts) (out : OutFile)
    (hrun : run f opts = Except.ok out) :
    ∃ tname fields,
      findRequestedStructType f.decls opts.structTypeName
          = some ⟨tname, TypeShape.structShape fields⟩
        ∧ out.decls = OutDecl.typeDef (funcTypeIdent tname opts.exportFnType)
              (TypeExpr.star (TypeExpr.ident tname))
            :: (eligibleEntries opts.generateForUnexportedFields
                opts.skipStructFields fields).map
              (fun e => OutDecl.funcDecl (mkSetterFunc tname
                (funcTypeIdent tname opts.exportFnType)
                (TypeExpr.star (TypeExpr.ident tname)) e.1 e.2))
        ∧ (setterTargets out.decls).Sublist (allFieldNames fields) := by
  obtain ⟨tname, fields, hfind, hall, hne, hout⟩ := (run_ok_iff f opts out).mp hrun
  refine ⟨tname, fields, hfind, ?_, ?_⟩
  · rw [hout]; rfl
  · rw [hout]
    show (setterTargets (canonicalDecls tname opts fields)).Sublist (allFieldNames fields)
    rw [setterTargets_canonical]
    exact eligibleNames_sublist _ _ _

/-- C7: extending the skip set with a name that occurs nowhere among the
target struct's field names leaves the entire result of `run` unchanged —
the same output on success and the same error on failure. -/
theorem skip_absent_name_no_effect (f : ParsedFile) (opts : flagOpts) (tname : Ident)
    (fields : List FieldGroup) (n : Ident)
    (hfind : findRequestedStructType f.decls opts.structTypeName
      = some ⟨tname, TypeShape.structShape fields⟩)
    (hn : n ∉ allFieldNames fields) :
    run f { opts with skipStructFields := n :: opts.skipStructFields } = run f opts := by
  obtain ⟨stn, eft, gfu, iU, skip⟩ := opts
  rw [run_eq_of_find_struct f ⟨stn, eft, gfu, iU, n :: skip⟩ tname fields hfind,
    run_eq_of_find_struct f ⟨stn, eft, gfu, iU, skip⟩ tname fields hfind]
  dsimp only
  rw [withFuncsAux_skip_cons tname (funcTypeIdent tname eft)
    (TypeExpr.star (TypeExpr.ident tname)) gfu iU skip n fields hn]

/-- C8: for every generated field whose name, first-char-lowercased, equals
the struct's name first-char-lowercased, the setter's outer parameter and the
inner closure's parameter carry the same identifier `<name>Gen`, the
assignment's left-hand side selects from that identifier, and its right-hand
side is that same identifier — so inside the closure the inner parameter
shadows the outer one and the assignment reads the closure's own
parameter. -/
theorem inner_param_shadows_on_name_collision (f : ParsedFile) (opts : flagOpts)
    (out : OutFile) (tname : Ident) (fields : List FieldGroup) (fd : FuncDecl)
    (hrun : run f opts = Except.ok out)
    (hfind : findRequestedStructType f.decls opts.structTypeName
      = some ⟨tname, TypeShape.structShape fields⟩)
    (hmem : OutDecl.funcDecl fd ∈ out.decls)
    (heq : withFirstCharLower fd.body.assignLhsSel = withFirstCharLower tname) :
    fd.paramName = withFirstCharLower fd.body.assignLhsSel ++ strBytes "Gen"
      ∧ fd.body.paramName = fd.paramName
      ∧ fd.body.assignLhsX = fd.body.paramName
      ∧ fd.body.assignRhs = fd.paramName := by
  obtain ⟨tname', fields', hfind', hall, hne, hout⟩ := (run_ok_iff f opts out).mp hrun
  rw [hfind] at hfind'
  have hts := Option.some.inj hfind'
  have htn : tname = tname' := congrArg TypeSpec.name hts
  subst htn
  subst hout
  rw [canonicalDecls] at hmem
  rcases List.mem_cons.mp hmem with habs | hmem'
  · exact absurd habs (by simp)
  · rcases List.mem_map.mp hmem' with ⟨e, _, hfd⟩
    have hfd' : fd = mkSetterFunc tname (funcTypeIdent tname opts.exportFnType)
        (TypeExpr.star (TypeExpr.ident tname)) e.1 e.2 :=
      (OutDecl.funcDecl.inj hfd).symm
    subst hfd'
    have hsel : (mkSetterFunc tname (funcTypeIdent tname opts.exportFnType)
        (TypeExpr.star (TypeExpr.ident tname)) e.1 e.2).body.assignLhsSel = e.1 := rfl
    rw [hsel] at heq ⊢
    refine ⟨rfl, ?_, rfl, rfl⟩
    show withFirstCharLower tname ++ strBytes "Gen" = withFirstCharLower e.1 ++ strBytes "Gen"
    rw [heq]

/-- C9: setter names are not guaranteed unique — a struct with fields `foo`
and `Foo`, with `generateForUnexportedFields` set and nothing skipped, runs
successfully and yields two function declarations both named `SetFoo`. -/
theorem setter_names_not_unique :
    ∃ (f : ParsedFile) (opts : flagOpts) (out : OutFile),
      opts.generateForUnexportedFields = true ∧ opts.skipStructFields = []
        ∧ run f opts = Except.ok out
        ∧ countOccur (strBytes "SetFoo") (out.decls.filterMap outDeclFuncName) = 2 :=
  ⟨c9file, c9opts, c9out, rfl, rfl, rfl, by decide⟩

/-- C10 counterexample: the field name `あ` begins with byte `0xE3`, which
is not an ASCII lowercase letter, yet the run with
`generateForUnexportedFields` off generates no setter for it (failing with
`noFields` as it is the only field): `0xE3` read as a Latin-1 code point is
`ã`, a lowercase letter, so the field is treated as unexported — the claim's
"treated as exported" is false for such names. -/
theorem multibyte_lead_byte_treated_unexported :
    (¬ (0x61 ≤ headByte (strBytes "あ") ∧ headByte (strBytes "あ") ≤ 0x7A))
      ∧ headByte (strBytes "あ") = 0xE3
      ∧ goIsLowerByte (headByte (strBytes "あ")) = true
      ∧ run c10file c10opts = Except.error GenError.noFields :=
  ⟨by decide, by decide, by decide, rfl⟩

/-- C10 amended: the unexported-field test examines only the first byte of
the field name, read as a single code point: with
`generateForUnexportedFields` off, a non-skipped field is generated iff
`goIsLowerByte` rejects its first byte.  Names beginning with an underscore
or a two-byte character (lead bytes `0xC2`-`0xDE`, e.g. `é`) are treated as
exported, but names beginning with characters at `U+07C0` and above (lead
bytes `0xDF`-`0xF4`) land in the Latin-1 lowercase range `0xDF`-`0xF6` and
are treated as unexported. -/
theorem unexported_test_is_latin1_first_byte (n : Ident) (t : TypeExpr) (sn fi : Ident)
    (pt : TypeExpr) (skip : List Ident) (hskip : n ∉ skip) :
    (genGroupFuncs sn fi pt false skip ⟨[n], t⟩ = [mkSetterFunc sn fi pt n t]
        ↔ goIsLowerByte (headByte n) = false)
      ∧ (goIsLowerByte (headByte n) = true →
          genGroupFuncs sn fi pt false skip ⟨[n], t⟩ = [])
      ∧ (∀ (b : Nat) (rest : List Nat), headByte (b :: rest) = b) := by
  refine ⟨?_, ?_, fun b rest => rfl⟩
  · cases hl : goIsLowerByte (headByte n) with
    | true =>
      constructor
      · intro h
        rw [genGroupFuncs] at h
        simp [hskip, hl] at h
      · intro h; cases h
    | false =>
      constructor
      · intro _; rfl
      · intro _
        rw [genGroupFuncs]
        simp [hskip, hl]
  · intro hl
    rw [genGroupFuncs]
    simp [hskip, hl]

theorem setter_count_one_iff_eligible_witness :
    countOccur (strBytes "B") (setterTargets wout.decls)
      = if strBytes "B" ∈ eligibleNames wopts.generateForUnexportedFields
          wopts.skipStructFields wfields then 1 else 0 :=
  setter_count_one_iff_eligible wfile wopts wout (strBytes "A") wfields rfl rfl
    (by decide) (strBytes "B")

theorem zero_output_law_witness :
    run c2file c2opts = Except.error GenError.noFields
      ∧ ∀ (g : ParsedFile) (o : flagOpts) (out : OutFile),
          run g o = Except.ok out →
          ∃ fnName paramType rest,
            out.decls = OutDecl.typeDef fnName paramType :: rest ∧ rest ≠ [] :=
  zero_output_law c2file c2opts (strBytes "A") c2fields rfl (by decide) (by decide)

theorem unsupported_group_error_iff_witness :
    ((withFuncs [] c3ts (strBytes "x") TypeExpr.interfaceType true false []
          = Except.error GenError.embeddedFieldsDisallowed
        ∨ withFuncs [] c3ts (strBytes "x") TypeExpr.interfaceType true false []
          = Except.error GenError.importedFieldType)
      ↔ (false = false ∧ ∃ g ∈ c3fields, g.names = [] ∨ containsSelector g.type = true))
    ∧ (false = true → withFuncs [] c3ts (strBytes "x") TypeExpr.interfaceType true false []
        = withFuncs [] ⟨c3ts.name, TypeShape.structShape
            (c3fields.filter fun g => !groupBad g)⟩
            (strBytes "x") TypeExpr.interfaceType true false []) :=
  unsupported_group_error_iff [] c3ts (strBytes "x") TypeExpr.interfaceType true false []
    c3fields rfl

theorem locator_first_struct_match_witness :
    (findRequestedStructType c4file.decls c4opts.structTypeName
        = (typeSpecsOf c4file.decls).find? (locatorPred c4opts.structTypeName))
      ∧ (findRequestedStructType c4file.decls c4opts.structTypeName = none →
          run c4file c4opts = Except.error GenError.typeNotFound)
      ∧ ((∀ ts ∈ typeSpecsOf c4file.decls,
            ts.name = c4opts.structTypeName → isStructShapeB ts.type = false) →
          run c4file c4opts = Except.error GenError.typeNotFound) :=
  locator_first_struct_match c4file c4opts

theorem setter_naming_invariant_witness :
    (∀ fd : FuncDecl, OutDecl.funcDecl fd ∈ wout.decls →
        fd.name = strBytes "Set" ++ withFirstCharUppper fd.body.assignLhsSel)
      ∧ ∃ tname rest,
          wout.decls = OutDecl.typeDef (funcTypeIdent tname wopts.exportFnType)
              (TypeExpr.star (TypeExpr.ident tname)) :: rest
            ∧ funcTypeIdent tname true = withFirstCharUppper tname ++ strBytes "FieldSetter"
            ∧ funcTypeIdent tname false = withFirstCharLower tname ++ strBytes "FieldSetter" :=
  setter_naming_invariant wfile wopts wout rfl

theorem output_declaration_order_witness :
    ∃ tname fields,
      findRequestedStructType c1file.decls c1opts.structTypeName
          = some ⟨tname, TypeShape.structShape fields⟩
        ∧ c1out.decls = OutDecl.typeDef (funcTypeIdent tname c1opts.exportFnType)
              (TypeExpr.star (TypeExpr.ident tname))
            :: (eligibleEntries c1opts.generateForUnexportedFields
                c1opts.skipStructFields fields).map
              (fun e => OutDecl.funcDecl (mkSetterFunc tname
                (funcTypeIdent tname c1opts.exportFnType)
                (TypeExpr.star (TypeExpr.ident tname)) e.1 e.2))
        ∧ (setterTargets c1out.decls).Sublist (allFieldNames fields) :=
  output_declaration_order c1file c1opts c1out rfl

theorem skip_absent_name_no_effect_witness :
    run wfile { wopts with skipStructFields := strBytes "Z" :: wopts.skipStructFields }
      = run wfile wopts :=
  skip_absent_name_no_effect wfile wopts (strBytes "A") wfields (strBytes "Z") rfl (by decide)

theorem inner_param_shadows_witness :
    c8fd.paramName = withFirstCharLower c8fd.body.assignLhsSel ++ strBytes "Gen"
      ∧ c8fd.body.paramName = c8fd.paramName
      ∧ c8fd.body.assignLhsX = c8fd.body.paramName
      ∧ c8fd.body.assignRhs = c8fd.paramName :=
  inner_param_shadows_on_name_collision c8file c8opts c8out (strBytes "A")
    [⟨[strBytes "A"], TypeExpr.ident (strBytes "int")⟩] c8fd rfl rfl (by decide) (by decide)

theorem unexported_test_is_latin1_first_byte_witness :
    (genGroupFuncs (strBytes "A") (strBytes "AFieldSetter")
          (TypeExpr.star (TypeExpr.ident (strBytes "A"))) false []
          ⟨[strBytes "_x"], TypeExpr.ident (strBytes "int")⟩
        = [mkSetterFunc (strBytes "A") (strBytes "AFieldSetter")
            (TypeExpr.star (TypeExpr.ident (strBytes "A"))) (strBytes "_x")
            (TypeExpr.ident (strBytes "int"))]
        ↔ goIsLowerByte (headByte (strBytes "_x")) = false)
      ∧ (goIsLowerByte (headByte (strBytes "_x")) = true →
          genGroupFuncs (strBytes "A") (strBytes "AFieldSetter")
            (TypeExpr.star (TypeExpr.ident (strBytes "A"))) false []
            ⟨[strBytes "_x"], TypeExpr.ident (strBytes "int")⟩ = [])
      ∧ (∀ (b : Nat) (rest : List Nat), headByte (b :: rest) = b) :=
  unexported_test_is_latin1_first_byte (strBytes "_x") (TypeExpr.ident (strBytes "int"))
    (strBytes "A") (strBytes "AFieldSetter")
    (TypeExpr.star (TypeExpr.ident (strBytes "A"))) [] (by decide)
